import Mathlib

/-!
Sona: request serving and output composition

A shallow embedding of the output formatter and diarization merger
(`internal/server/format.go`), the derived transcript text
(`internal/whisper/whisper.go`) and the transcription handlers
(`internal/server/api_handlers.go`), followed by the properties proved of them.

Conventions of the embedding:

* Go `int`/`int64` values are `Int`; where the Go code does arithmetic that can
  leave the 64-bit range (`cs * 10`) the result is wrapped explicitly.
* `matchSpeaker` only compares time values and subtracts them, so it is embedded
  over an arbitrary linearly ordered type with an arbitrary subtraction. The
  float64 values the Go code can receive here (decoded from JSON, or an int64
  divided by 100) are never NaN, and on those float64 is such a type whatever
  the rounding of `-` is. Concrete evaluations use `ℚ`.
* Go strings are `String`; a `strings.Builder` is the string written so far.
-/

namespace Sona

/-! ## Definitions -/

namespace diarize

/-- The speaker span `diarize.Segment`: `Start`, `End` in seconds and the
speaker id, over the time type `α` (float64 in the Go code). -/
structure Segment (α : Type) where
  Start : α
  End : α
  SpeakerID : Int
deriving Repr

end diarize

namespace whisper

/-- The transcript segment `whisper.Segment`: start and end in centiseconds
(int64) and the text. -/
structure Segment where
  Start : Int
  End : Int
  Text : String
deriving Repr, DecidableEq

/-- The loop of `TranscribeResult.Text`: each segment's text is written to the
builder `sb` in turn. -/
def TextLoop : List Segment → String → String
  | [], sb => sb
  | s :: rest, sb => TextLoop rest (sb ++ s.Text)

/-- The method `TranscribeResult.Text`, on the result's segment list. -/
def Text (segments : List Segment) : String :=
  TextLoop segments ""

end whisper

/-- The loop of `matchSpeaker`, from the state `(bestID, bestOverlap)`. -/
def matchSpeakerLoop {α : Type} [LinearOrder α] [Sub α] (start end_ : α) :
    List (diarize.Segment α) → Int → α → Int
  | [], bestID, _ => bestID
  | ds :: rest, bestID, bestOverlap =>
    let oStart := if ds.Start > start then ds.Start else start
    let oEnd := if ds.End < end_ then ds.End else end_
    let overlap := oEnd - oStart
    if overlap > bestOverlap then
      matchSpeakerLoop start end_ rest ds.SpeakerID overlap
    else
      matchSpeakerLoop start end_ rest bestID bestOverlap

/-- The function `matchSpeaker`: the speaker id of the diarization segment with
maximum overlap, or -1. -/
def matchSpeaker {α : Type} [LinearOrder α] [Sub α] [Zero α] (start end_ : α)
    (diarSegments : List (diarize.Segment α)) : Int :=
  matchSpeakerLoop start end_ diarSegments (-1) 0

/-- The overlap of the interval `[start, end_]` with a span, in the words of the
specification: `max(0, min(end, dEnd) - max(start, dStart))`. -/
def overlap {α : Type} [LinearOrder α] [Sub α] [Zero α] (start end_ : α)
    (d : diarize.Segment α) : α :=
  max 0 (min end_ d.End - max start d.Start)

/-- The span `d` is at index `i` of `l`, its overlap with `[start, end_]` is
positive, no span of `l` has a larger overlap, and every span before index `i`
has a strictly smaller one: `d` is the earliest span of largest positive
overlap. -/
def IsSelectedSpan {α : Type} [LinearOrder α] [Sub α] [Zero α] (start end_ : α)
    (l : List (diarize.Segment α)) (i : Nat) (d : diarize.Segment α) : Prop :=
  l[i]? = some d ∧ 0 < overlap start end_ d ∧
    (∀ (j : Nat) (e : diarize.Segment α), l[j]? = some e →
      overlap start end_ e ≤ overlap start end_ d) ∧
    (∀ (j : Nat) (e : diarize.Segment α), j < i → l[j]? = some e →
      overlap start end_ e < overlap start end_ d)

/-- The function `csToSeconds`: centiseconds to seconds, `float64(cs) / 100.0`. -/
def csToSeconds (cs : Int) : ℚ :=
  (cs : ℚ) / 100

/-- The struct `verboseSegment`; `Speaker` is the `*int` field, `none` for the
nil pointer (the key `speaker` is then omitted from the JSON). -/
structure verboseSegment where
  Start : ℚ
  End : ℚ
  Text : String
  Speaker : Option Int
deriving Repr

/-- The struct `verboseJSON`. -/
structure verboseJSON where
  Text : String
  Segments : List verboseSegment
deriving Repr

/-- The body of the loop of `buildVerboseJSON` for one segment. The argument
`diarSegments` is `none` for a nil slice. -/
def buildVerboseSegment (diarSegments : Option (List (diarize.Segment ℚ)))
    (seg : whisper.Segment) : verboseSegment :=
  let v : verboseSegment :=
    { Start := csToSeconds seg.Start, End := csToSeconds seg.End, Text := seg.Text,
      Speaker := none }
  match diarSegments with
  | none => v
  | some ds =>
    let sp := matchSpeaker (csToSeconds seg.Start) (csToSeconds seg.End) ds
    if sp ≥ 0 then { v with Speaker := some sp } else v

/-- The function `buildVerboseJSON`: the slice `vSegs` has one element per
segment, filled in input order. -/
def buildVerboseJSON (segments : List whisper.Segment)
    (diarSegments : Option (List (diarize.Segment ℚ))) : verboseJSON :=
  { Text := whisper.Text segments
    Segments := segments.map (buildVerboseSegment diarSegments) }

/-- The result of an int64 operation whose exact value is `x`: Go wraps it into
the range `[-2^63, 2^63)`. -/
def wrapInt64 (x : Int) : Int :=
  (x + 9223372036854775808) % 18446744073709551616 - 9223372036854775808

/-- The decimal digits `digits` padded on the left with zeros to `w`
characters. -/
def padZeros (w : Nat) (digits : String) : String :=
  String.mk (List.replicate (w - digits.length) '0') ++ digits

/-- The verb `%0wd` of `fmt.Sprintf` on an integer: the sign, when there is one,
counts towards the width `w`, and the zeros follow it. -/
def fmtZeroPad (w : Nat) (n : Int) : String :=
  if n < 0 then "-" ++ padZeros (w - 1) (Nat.repr n.natAbs)
  else padZeros w (Nat.repr n.toNat)

/-- The function `csToSRTTime`; int64 division and remainder truncate towards
zero. -/
def csToSRTTime (cs : Int) : String :=
  let ms := wrapInt64 (cs * 10)
  let s := ms.tdiv 1000
  let ms := ms.tmod 1000
  let m := s.tdiv 60
  let s := s.tmod 60
  let h := m.tdiv 60
  let m := m.tmod 60
  fmtZeroPad 2 h ++ ":" ++ fmtZeroPad 2 m ++ ":" ++ fmtZeroPad 2 s ++ "," ++ fmtZeroPad 3 ms

/-- The function `csToVTTTime`. -/
def csToVTTTime (cs : Int) : String :=
  let ms := wrapInt64 (cs * 10)
  let s := ms.tdiv 1000
  let ms := ms.tmod 1000
  let m := s.tdiv 60
  let s := s.tmod 60
  let h := m.tdiv 60
  let m := m.tmod 60
  fmtZeroPad 2 h ++ ":" ++ fmtZeroPad 2 m ++ ":" ++ fmtZeroPad 2 s ++ "." ++ fmtZeroPad 3 ms

/-- The number `n` in decimal, zero-padded to at least `w` digits. -/
def zeroPadded (w n : Nat) : String :=
  padZeros w (Nat.repr n)

/-- The timestamp of the specification for `M` milliseconds with the decimal
separator `sep`: `HH:MM:SS` `sep` `mmm` with `mmm = M mod 1000`,
`SS = (M div 1000) mod 60`, `MM = (M div 60000) mod 60`, `HH = M div 3600000`. -/
def timestampOfMillis (sep : String) (M : Nat) : String :=
  zeroPadded 2 (M / 3600000) ++ ":" ++ zeroPadded 2 (M / 60000 % 60) ++ ":" ++
    zeroPadded 2 (M / 1000 % 60) ++ sep ++ zeroPadded 3 (M % 1000)

/-- The predicate `unicode.IsSpace` of the Go standard library: the Latin-1
spaces `\t`, `\n`, `\v`, `\f`, `\r`, space, U+0085 and U+00A0, and the other
code points of the Unicode property White_Space. -/
def isSpace (c : Char) : Bool :=
  let n := c.toNat
  (9 ≤ n && n ≤ 13) || n = 32 || n = 0x85 || n = 0xA0 || n = 0x1680 ||
    (0x2000 ≤ n && n ≤ 0x200A) || n = 0x2028 || n = 0x2029 || n = 0x202F ||
    n = 0x205F || n = 0x3000

/-- The function `strings.TrimSpace` of the Go standard library: the string
without its leading and trailing white space. -/
def TrimSpace (s : String) : String :=
  String.mk ((s.data.dropWhile isSpace).reverse.dropWhile isSpace).reverse

/-- The loop of `formatSRT` from index `i` with the builder holding `sb`. -/
def formatSRTLoop : List whisper.Segment → Nat → String → String
  | [], _, sb => sb
  | seg :: rest, i, sb =>
    let sb := if i > 0 then sb ++ "\n" else sb
    let sb := sb ++ (Nat.repr (i + 1) ++ "\n" ++ csToSRTTime seg.Start ++ " --> " ++
      csToSRTTime seg.End ++ "\n" ++ TrimSpace seg.Text ++ "\n")
    formatSRTLoop rest (i + 1) sb

/-- The function `formatSRT`. -/
def formatSRT (segments : List whisper.Segment) : String :=
  formatSRTLoop segments 0 ""

/-- The loop of `formatVTT` from index `i` with the builder holding `sb`. -/
def formatVTTLoop : List whisper.Segment → Nat → String → String
  | [], _, sb => sb
  | seg :: rest, i, sb =>
    let sb := if i > 0 then sb ++ "\n" else sb
    let sb := sb ++ (csToVTTTime seg.Start ++ " --> " ++ csToVTTTime seg.End ++ "\n" ++
      TrimSpace seg.Text ++ "\n")
    formatVTTLoop rest (i + 1) sb

/-- The function `formatVTT`. -/
def formatVTT (segments : List whisper.Segment) : String :=
  formatVTTLoop segments 0 "WEBVTT\n\n"

/-- The SubRip entry number `k` of the specification for a segment:
`k`, the line `START --> END` and the trimmed text, each ending its line. -/
def srtEntry (k : Nat) (seg : whisper.Segment) : String :=
  Nat.repr k ++ "\n" ++ csToSRTTime seg.Start ++ " --> " ++ csToSRTTime seg.End ++ "\n" ++
    TrimSpace seg.Text ++ "\n"

/-- The WebVTT cue of the specification for a segment: the line
`START --> END` and the trimmed text, each ending its line; no cue number. -/
def vttCue (seg : whisper.Segment) : String :=
  csToVTTTime seg.Start ++ " --> " ++ csToVTTTime seg.End ++ "\n" ++
    TrimSpace seg.Text ++ "\n"

/-! ### The engine call (`internal/whisper/whisper_cgo.go`) -/

namespace whisper

/-- The struct `TranscribeOptions`; `Temperature` is a float32. -/
structure TranscribeOptions where
  Language : String
  DetectLanguage : Bool
  Translate : Bool
  Threads : Int
  Prompt : String
  Verbose : Bool
  Temperature : ℚ
  MaxTextCtx : Int
  WordTimestamps : Bool
  MaxSegmentLen : Int
  SamplingGreedy : Bool
  BestOf : Int
  BeamSize : Int
deriving Repr

/-- The struct `StreamCallbacks`, its callbacks acting on the state `σ` of the
caller (what the caller has written so far); `none` is a nil func.
`ShouldAbort` only reads the caller's abort flag, so the field records whether
it is set. -/
structure StreamCallbacks (σ : Type) where
  OnProgress : Option (Int → σ → σ)
  OnSegment : Option (Segment → σ → σ)
  ShouldAbort : Bool

/-- The values of `enum whisper_sampling_strategy`. -/
inductive SamplingStrategy where
  | WHISPER_SAMPLING_GREEDY
  | WHISPER_SAMPLING_BEAM_SEARCH
deriving Repr, DecidableEq

/-- The fields of the C struct `whisper_full_params` that `TranscribeStream`
sets, and whether the stream callbacks are installed. -/
structure FullParams where
  strategy : SamplingStrategy
  print_special : Bool
  print_progress : Bool
  print_realtime : Bool
  print_timestamps : Bool
  language : Option String
  detect_language : Bool
  translate : Bool
  n_threads : Int
  initial_prompt : Option String
  temperature : ℚ
  n_max_text_ctx : Int
  token_timestamps : Bool
  max_len : Int
  greedy_best_of : Int
  beam_search_beam_size : Int
  stream_callbacks : Bool
deriving Repr

/-- One callback made by `whisper_full` while it runs. Polls of `ShouldAbort`
write nothing and are not listed. -/
inductive Callback where
  | progress (progress : Int)
  | segment (seg : Segment)
deriving Repr

/-- What one call of `whisper_full` does: the callbacks it makes, in order, its
return code, and the segments the context holds afterwards. -/
structure EngineRun where
  calls : List Callback
  ret : Int
  segments : List Segment
deriving Repr

/-- The sample buffer passed to the engine. `TranscribeStream` takes the
address of `samples[0]`, so the buffer of a call has a first element. -/
structure Samples where
  first : ℚ
  rest : List ℚ
deriving Repr

/-- The C library behind the cgo calls (external): the default parameters of a
strategy, and the run of `whisper_full` on a context, parameters and samples. -/
structure Engine where
  whisper_full_default_params : SamplingStrategy → FullParams
  whisper_full : Nat → FullParams → Samples → EngineRun

/-- The struct `Context`: the C context pointer, `none` when nil. -/
structure Context where
  ctx : Option Nat
deriving Repr

/-- The callback `cb` makes of one engine callback: a nil func is not called. -/
def StreamCallbacks.invoke {σ : Type} (cb : StreamCallbacks σ) : Callback → σ → σ
  | .progress p, st =>
    match cb.OnProgress with
    | some f => f p st
    | none => st
  | .segment seg, st =>
    match cb.OnSegment with
    | some f => f seg st
    | none => st

/-- The parameters `TranscribeStream` passes to `whisper_full`. -/
def fullParams (eng : Engine) (opts : TranscribeOptions) (hasCallbacks : Bool) :
    FullParams :=
  let strategy :=
    if !opts.SamplingGreedy && opts.BeamSize > 0 then
      SamplingStrategy.WHISPER_SAMPLING_BEAM_SEARCH
    else SamplingStrategy.WHISPER_SAMPLING_GREEDY
  let params := eng.whisper_full_default_params strategy
  let params := { params with
    print_special := opts.Verbose, print_progress := opts.Verbose,
    print_realtime := opts.Verbose, print_timestamps := opts.Verbose }
  let params :=
    if opts.Language ≠ "" then { params with language := some opts.Language } else params
  let params := if opts.DetectLanguage then { params with detect_language := true } else params
  let params := if opts.Translate then { params with translate := true } else params
  let params := if opts.Threads > 0 then { params with n_threads := opts.Threads } else params
  let params :=
    if opts.Prompt ≠ "" then { params with initial_prompt := some opts.Prompt } else params
  let params :=
    if opts.Temperature > 0 then { params with temperature := opts.Temperature } else params
  let params :=
    if opts.MaxTextCtx > 0 then { params with n_max_text_ctx := opts.MaxTextCtx } else params
  let params :=
    if opts.WordTimestamps then { params with token_timestamps := true } else params
  let params :=
    if opts.MaxSegmentLen > 0 then { params with max_len := opts.MaxSegmentLen } else params
  let params := if opts.BestOf > 0 then { params with greedy_best_of := opts.BestOf } else params
  let params :=
    if opts.BeamSize > 0 then { params with beam_search_beam_size := opts.BeamSize } else params
  if hasCallbacks then { params with stream_callbacks := true } else params

/-- The method `Context.TranscribeStream`: the caller's state after the
callbacks of the run, and the result or the error message. -/
def Context.TranscribeStream {σ : Type} (c : Context) (eng : Engine) (samples : Samples)
    (opts : TranscribeOptions) (cb : StreamCallbacks σ) (st : σ) :
    σ × Except String (List Segment) :=
  match c.ctx with
  | none => (st, .error "whisper: context is nil")
  | some ctx =>
    let hasCallbacks := cb.OnProgress.isSome || cb.OnSegment.isSome || cb.ShouldAbort
    let run := eng.whisper_full ctx (fullParams eng opts hasCallbacks) samples
    let st := run.calls.foldl (fun acc call => cb.invoke call acc) st
    if run.ret ≠ 0 then
      (st, .error ("whisper: transcription failed with code " ++ toString run.ret))
    else
      (st, .ok run.segments)

end whisper

/-! ### Form values (`internal/server/form_values.go`) -/

/-- The function `strconv.ParseBool` of the Go standard library: it accepts
1, t, T, TRUE, true, True, 0, f, F, FALSE, false, False; `none` is an error. -/
def ParseBool (str : String) : Option Bool :=
  if str ∈ ["1", "t", "T", "TRUE", "true", "True"] then some true
  else if str ∈ ["0", "f", "F", "FALSE", "false", "False"] then some false
  else none

/-- The function `parseBoolFormValue`: `err == nil && b`. -/
def parseBoolFormValue (v : String) : Bool :=
  match ParseBool v with
  | some b => b
  | none => false

/-- The function `strconv.Atoi` of the Go standard library on a 64-bit
platform: an optional sign followed by at least one decimal digit, the value
within the range of int64; `none` is an error. -/
def Atoi (str : String) : Option Int :=
  let digits :=
    match str.data with
    | '-' :: r => r
    | '+' :: r => r
    | cs => cs
  if digits.isEmpty || !digits.all Char.isDigit then none
  else
    let n : Nat := digits.foldl (fun acc ch => acc * 10 + (ch.toNat - 48)) 0
    let v : Int := if str.data.head? = some '-' then -(n : Int) else (n : Int)
    if v < -9223372036854775808 ∨ 9223372036854775807 < v then none else some v

/-- The function `parseIntFormValue`. -/
def parseIntFormValue (v : String) : Int :=
  match Atoi v with
  | none => 0
  | some n => n

/-- The function `parseFloatFormValue`, over the library function
`strconv.ParseFloat(v, 32)` (`none` is an error) and the type `F` of its
values (float32 in the Go code). -/
def parseFloatFormValue {F : Type} [Zero F] (ParseFloat : String → Option F) (v : String) : F :=
  match ParseFloat v with
  | none => 0
  | some f => f

/-! ### The handlers (`internal/server/api_handlers.go`) -/

/-- An uploaded file, as `r.FormFile` returns it. -/
structure Upload where
  bytes : List Nat
deriving Repr

/-- The request as the handler reads it: `r.FormValue`, and `r.FormFile`
(over the body limited by `http.MaxBytesReader`), which returns the file or an
error message. -/
structure Request where
  FormValue : String → String
  FormFile : String → Except String Upload

/-- What lies outside the handler during one request: the engine library,
`audio.ReadWithOptions` (the file and the `EnhanceAudio` option to samples or an
error message), `strconv.ParseFloat(v, 32)`, whether the response writer is an
`http.Flusher`, and the value `aborted.Load()` returns once the engine call has
returned. -/
structure World where
  engine : whisper.Engine
  ReadWithOptions : Upload → Bool → Except String whisper.Samples
  ParseFloat : String → Option ℚ
  flusher : Bool
  aborted : Bool

/-- A record of the streaming protocol, one line of the response. -/
inductive StreamEvent where
  | progress (progress : Int)
  | segment (start end_ : ℚ) (text : String)
  | result (text : String)
  | error (message : String)
deriving Repr

/-- What a handler wrote as the response body. -/
inductive Body where
  | nothing
  | error (message : String)
  | json (text : String)
  | verbose (v : verboseJSON)
  | plain (text : String)
  | ndjson (events : List StreamEvent)
deriving Repr

/-- The response a handler leaves in the `http.ResponseWriter`: the status code
(200 unless one was written), the headers set, in order, and the body. -/
structure Response where
  status : Nat
  header : List (String × String)
  body : Body
deriving Repr

/-- The external calls a handler makes, in order. -/
inductive Effect where
  | formFile
  | readAudio
  | transcribe
deriving Repr, DecidableEq

/-- What a handler run leaves behind: the response and the external calls made. -/
structure Outcome where
  response : Response
  trace : List Effect
deriving Repr

/-- Modelled from the spec: `writeError` is declared outside the given sources;
it answers with the given status code and a body carrying the message. -/
def writeError (status : Nat) (message : String) : Response :=
  { status := status, header := [], body := .error message }

/-- The struct `Server`: whether the mutex `mu` is held, the loaded context
(`none` when nil), the model name and the verbose flag. -/
structure Server where
  locked : Bool
  ctx : Option whisper.Context
  modelName : String
  verbose : Bool
deriving Repr

/-- The callbacks of `handleStreamingTranscription`; each writes one event to
the encoder and flushes. The state is the list of events written. -/
def streamCallbacks : whisper.StreamCallbacks (List StreamEvent) :=
  { OnProgress := some (fun progress evs => evs ++ [.progress progress])
    OnSegment := some (fun seg evs =>
      evs ++ [.segment (csToSeconds seg.Start) (csToSeconds seg.End) seg.Text])
    ShouldAbort := true }

/-- The method `handleStreamingTranscription`, called with the loaded context
`c` (the caller has checked `s.ctx != nil`). -/
def handleStreamingTranscription (c : whisper.Context) (w : World)
    (samples : whisper.Samples) (opts : whisper.TranscribeOptions) : Response :=
  if !w.flusher then writeError 500 "streaming not supported"
  else
    let header := [("Content-Type", "application/x-ndjson"), ("Cache-Control", "no-cache"),
      ("Connection", "keep-alive")]
    let (evs, result) := c.TranscribeStream w.engine samples opts streamCallbacks []
    match result with
    | .error err =>
      if !w.aborted then
        { status := 200, header := header, body := .ndjson (evs ++ [.error err]) }
      else
        { status := 200, header := header, body := .ndjson evs }
    | .ok segments =>
      { status := 200, header := header,
        body := .ndjson (evs ++ [.result (whisper.Text segments)]) }

/-- The part of `handleTranscription` that runs with the mutex held. -/
def handleTranscriptionLocked (s : Server) (w : World) (r : Request) : Outcome :=
  match s.ctx with
  | none => { response := writeError 503 "no model loaded", trace := [] }
  | some c =>
    match r.FormFile "file" with
    | .error err =>
      { response := writeError 400 ("missing or invalid 'file' field: " ++ err),
        trace := [.formFile] }
    | .ok file =>
      match w.ReadWithOptions file (parseBoolFormValue (r.FormValue "enhance_audio")) with
      | .error err =>
        { response := writeError 400 ("invalid audio file: " ++ err),
          trace := [.formFile, .readAudio] }
      | .ok samples =>
        let samplingStrategy := r.FormValue "sampling_strategy"
        let opts : whisper.TranscribeOptions :=
          { Language := r.FormValue "language"
            DetectLanguage := parseBoolFormValue (r.FormValue "detect_language")
            Translate := parseBoolFormValue (r.FormValue "translate")
            Threads := parseIntFormValue (r.FormValue "n_threads")
            Prompt := r.FormValue "prompt"
            Verbose := s.verbose
            Temperature := parseFloatFormValue w.ParseFloat (r.FormValue "temperature")
            MaxTextCtx := parseIntFormValue (r.FormValue "max_text_ctx")
            WordTimestamps := parseBoolFormValue (r.FormValue "word_timestamps")
            MaxSegmentLen := parseIntFormValue (r.FormValue "max_segment_len")
            SamplingGreedy := samplingStrategy ≠ "beam_search"
            BestOf := parseIntFormValue (r.FormValue "best_of")
            BeamSize := parseIntFormValue (r.FormValue "beam_size") }
        let responseFormat :=
          if r.FormValue "response_format" = "" then "json" else r.FormValue "response_format"
        let stream := parseBoolFormValue (r.FormValue "stream")
        let trace := [Effect.formFile, .readAudio, .transcribe]
        if stream then
          if !w.flusher then
            { response := handleStreamingTranscription c w samples opts,
              trace := [.formFile, .readAudio] }
          else { response := handleStreamingTranscription c w samples opts, trace := trace }
        else
          let cb : whisper.StreamCallbacks Unit :=
            { OnProgress := none, OnSegment := none, ShouldAbort := true }
          match (c.TranscribeStream w.engine samples opts cb ()).2 with
          | .error err =>
            if w.aborted then
              { response := { status := 200, header := [], body := .nothing }, trace := trace }
            else
              { response := writeError 500 ("transcription failed: " ++ err), trace := trace }
          | .ok segments =>
            if responseFormat = "verbose_json" then
              { response :=
                  { status := 200
                    header := [("Content-Type", "application/json")]
                    body := .verbose (buildVerboseJSON segments none) }
                trace := trace }
            else if responseFormat = "text" then
              { response :=
                  { status := 200
                    header := [("Content-Type", "text/plain")]
                    body := .plain (whisper.Text segments) }
                trace := trace }
            else if responseFormat = "srt" then
              { response :=
                  { status := 200
                    header := [("Content-Type", "text/plain")]
                    body := .plain (formatSRT segments) }
                trace := trace }
            else if responseFormat = "vtt" then
              { response :=
                  { status := 200
                    header := [("Content-Type", "text/plain")]
                    body := .plain (formatVTT segments) }
                trace := trace }
            else
              { response :=
                  { status := 200
                    header := [("Content-Type", "application/json")]
                    body := .json (whisper.Text segments) }
                trace := trace }

/-- The method `handleTranscription`: `TryLock` fails when the mutex is held;
otherwise the handler runs with the mutex held and the deferred `Unlock`
releases it. The result is the server afterwards and the outcome. -/
def handleTranscription (s : Server) (w : World) (r : Request) : Server × Outcome :=
  if s.locked then
    (s, { response := writeError 429 "server is busy with another transcription",
          trace := [] })
  else
    let s := { s with locked := true }
    let out := handleTranscriptionLocked s w r
    ({ s with locked := false }, out)

/-- The event the streaming handler writes for one engine callback. -/
def callbackEvent : whisper.Callback → StreamEvent
  | .progress p => .progress p
  | .segment seg => .segment (csToSeconds seg.Start) (csToSeconds seg.End) seg.Text

/-- Whether an event is terminal: a `result` or an `error` event. -/
def StreamEvent.isTerminal : StreamEvent → Bool
  | .result _ => true
  | .error _ => true
  | _ => false

/-- A sample engine library: one progress callback, return code 0 and one
segment, whatever the parameters. -/
def sampleEngine : whisper.Engine :=
  { whisper_full_default_params := fun strategy =>
      { strategy := strategy, print_special := false, print_progress := false,
        print_realtime := false, print_timestamps := false, language := some "en",
        detect_language := false, translate := false, n_threads := 4,
        initial_prompt := none, temperature := 0, n_max_text_ctx := 16384,
        token_timestamps := false, max_len := 0, greedy_best_of := 5,
        beam_search_beam_size := 5, stream_callbacks := false }
    whisper_full := fun _ _ _ =>
      { calls := [.progress 50], ret := 0, segments := [⟨0, 100, "a"⟩] } }

/-- A sample engine library whose run makes one progress callback and fails
with code 7. -/
def failingEngine : whisper.Engine :=
  { sampleEngine with
    whisper_full := fun _ _ _ => { calls := [.progress 50], ret := 7, segments := [] } }

/-- A sample world around `eng`: ingestion yields one sample, no float parses,
the writer can flush, and the abort flag is `aborted`. -/
def sampleWorld (eng : whisper.Engine) (aborted : Bool) : World :=
  { engine := eng, ReadWithOptions := fun _ _ => .ok ⟨0, []⟩, ParseFloat := fun _ => none,
    flusher := true, aborted := aborted }

/-- Sample options: every field at its zero value, greedy sampling. -/
def sampleOptions : whisper.TranscribeOptions :=
  { Language := "", DetectLanguage := false, Translate := false, Threads := 0, Prompt := "",
    Verbose := false, Temperature := 0, MaxTextCtx := 0, WordTimestamps := false,
    MaxSegmentLen := 0, SamplingGreedy := true, BestOf := 0, BeamSize := 0 }

/-! ### The sampling strategy of a request -/

/-- The strategy `TranscribeStream` selects before it asks the library for the
default parameters. -/
def whisper.chosenStrategy (opts : whisper.TranscribeOptions) : whisper.SamplingStrategy :=
  if !opts.SamplingGreedy && opts.BeamSize > 0 then
    whisper.SamplingStrategy.WHISPER_SAMPLING_BEAM_SEARCH
  else whisper.SamplingStrategy.WHISPER_SAMPLING_GREEDY

/-- A probe engine library: its default parameters carry the strategy asked
for, and its run returns code 0 and one segment whose text names the strategy
of the parameters `whisper_full` received. -/
def probeEngine : whisper.Engine :=
  { sampleEngine with
    whisper_full := fun _ params _ =>
      { calls := [], ret := 0,
        segments := [⟨0, 0,
          match params.strategy with
          | .WHISPER_SAMPLING_GREEDY => "greedy"
          | .WHISPER_SAMPLING_BEAM_SEARCH => "beam_search"⟩] } }

/-- A request with the form fields `fields` (an absent field reads as the empty
string) and an uploaded file. -/
def formRequest (fields : List (String × String)) : Request :=
  { FormValue := fun key =>
      match fields.lookup key with
      | some v => v
      | none => ""
    FormFile := fun _ => .ok ⟨[]⟩ }

/-- A server with a model loaded and the mutex free. -/
def idleServer : Server :=
  { locked := false, ctx := some ⟨some 1⟩, modelName := "model.bin", verbose := false }

/-! ### Go slices and their JSON encoding -/

/-- The Go expression `make([]T, n)`: a slice of `n` zero values, which is not
nil. A slice value is `none` when it is the nil slice. -/
def make {α : Type} (zero : α) (n : Nat) : Option (List α) :=
  some (List.replicate n zero)

/-- How `encoding/json` writes a slice: `null` for the nil slice, otherwise the
elements between brackets, separated by commas. -/
def encodeSlice {α : Type} (enc : α → String) : Option (List α) → String
  | none => "null"
  | some l => "[" ++ String.intercalate "," (l.map enc) ++ "]"

/-- The loop of `buildVerboseJSON` on the slice `vSegs`, from index `i`: the
element at the index of each segment is assigned. -/
def fillVerboseSegments (diarSegments : Option (List (diarize.Segment ℚ))) :
    List whisper.Segment → Nat → List verboseSegment → List verboseSegment
  | [], _, vSegs => vSegs
  | seg :: rest, i, vSegs =>
    fillVerboseSegments diarSegments rest (i + 1)
      (vSegs.set i (buildVerboseSegment diarSegments seg))

/-- The slice `vSegs` that `buildVerboseJSON` returns as `Segments`: made with
`make([]verboseSegment, len(segments))`, then filled by the loop. -/
def vSegs (segments : List whisper.Segment)
    (diarSegments : Option (List (diarize.Segment ℚ))) : Option (List verboseSegment) :=
  (make { Start := 0, End := 0, Text := "", Speaker := none } segments.length).map
    (fillVerboseSegments diarSegments segments 0)

/-! ### Readiness and listing (`internal/server/api_handlers.go`) -/

/-- The response of a handler that encodes one JSON value of type `α`: the
status code (200 unless one was written), the headers set and the value. -/
structure JSONResponse (α : Type) where
  status : Nat
  header : List (String × String)
  value : α
deriving Repr

/-- The method `handleReady`. `s.mu.Lock()` blocks while the mutex is held: the
result is `none` when the handler cannot proceed, otherwise the server
afterwards (the mutex released) and the response, whose value is the
`map[string]string` written, as its entries. -/
def handleReady (s : Server) : Option (Server × JSONResponse (List (String × String))) :=
  if s.locked then none
  else
    let s := { s with locked := true }
    let loaded := s.ctx.isSome
    let name := s.modelName
    let s := { s with locked := false }
    if !loaded then
      some (s, { status := 503, header := [("Content-Type", "application/json")],
                 value := [("status", "not_ready"), ("message", "no model loaded")] })
    else
      some (s, { status := 200, header := [("Content-Type", "application/json")],
                 value := [("status", "ready"), ("model", name)] })

/-- One element of `data` in `handleModels`. -/
structure ModelEntry where
  id : String
  object : String
  created : Int
  owned_by : String
deriving Repr, DecidableEq

/-- The JSON value `handleModels` encodes; `data` is a Go slice, `none` when it
is nil. -/
structure ModelList where
  object : String
  data : Option (List ModelEntry)
deriving Repr, DecidableEq

/-- The method `handleModels`; `now` is `time.Now().Unix()`. `s.mu.Lock()`
blocks while the mutex is held: the result is `none` when the handler cannot
proceed. -/
def handleModels (s : Server) (now : Int) : Option (Server × JSONResponse ModelList) :=
  if s.locked then none
  else
    let s := { s with locked := true }
    let name := s.modelName
    let loaded := s.ctx.isSome
    let s := { s with locked := false }
    let data : Option (List ModelEntry) :=
      if loaded then
        some [{ id := name, object := "model", created := now, owned_by := "local" }]
      else some []
    some (s, { status := 200, header := [("Content-Type", "application/json")],
               value := { object := "list", data := data } })

/-! ## Theorems -/

/-- The two conditionals of `matchSpeaker` compute the larger start and the
smaller end. -/
theorem matchSpeakerLoop_cons {α : Type} [LinearOrder α] [Sub α] (start end_ : α)
    (ds : diarize.Segment α) (rest : List (diarize.Segment α)) (b : Int) (bo : α) :
    matchSpeakerLoop start end_ (ds :: rest) b bo =
      if bo < min end_ ds.End - max start ds.Start then
        matchSpeakerLoop start end_ rest ds.SpeakerID
          (min end_ ds.End - max start ds.Start)
      else matchSpeakerLoop start end_ rest b bo := by
  have h1 : (if ds.Start > start then ds.Start else start) = max start ds.Start := by
    by_cases h : start < ds.Start
    · simp [h, max_eq_right h.le]
    · simp [h, max_eq_left (not_lt.mp h)]
  have h2 : (if ds.End < end_ then ds.End else end_) = min end_ ds.End := by
    by_cases h : ds.End < end_
    · simp [h, min_eq_right h.le]
    · simp [h, min_eq_left (not_lt.mp h)]
  simp only [matchSpeakerLoop, h1, h2, gt_iff_lt]

/-- The result of the loop of `matchSpeaker` from the state `(b, bo)`: either no
span exceeds `bo` and the result is `b`, or the result is the id of the earliest
span of largest difference `min end dEnd - max start dStart`, which exceeds
`bo`. -/
theorem matchSpeakerLoop_spec {α : Type} [LinearOrder α] [Sub α] (start end_ : α)
    (l : List (diarize.Segment α)) (b : Int) (bo : α) :
    ((∀ d ∈ l, min end_ d.End - max start d.Start ≤ bo) ∧
        matchSpeakerLoop start end_ l b bo = b) ∨
      (∃ (i : Nat) (d : diarize.Segment α), l[i]? = some d ∧
        bo < min end_ d.End - max start d.Start ∧
        (∀ (j : Nat) (e : diarize.Segment α), l[j]? = some e →
          min end_ e.End - max start e.Start ≤ min end_ d.End - max start d.Start) ∧
        (∀ (j : Nat) (e : diarize.Segment α), j < i → l[j]? = some e →
          min end_ e.End - max start e.Start < min end_ d.End - max start d.Start) ∧
        matchSpeakerLoop start end_ l b bo = d.SpeakerID) := by
  induction l generalizing b bo with
  | nil => left; simp [matchSpeakerLoop]
  | cons ds rest ih =>
    rw [matchSpeakerLoop_cons]
    by_cases h : bo < min end_ ds.End - max start ds.Start
    · rw [if_pos h]
      right
      rcases ih ds.SpeakerID (min end_ ds.End - max start ds.Start) with
        ⟨hall, hres⟩ | ⟨i, d, hi, hlt, hmax, hfirst, hres⟩
      · refine ⟨0, ds, by simp, h, ?_, ?_, hres⟩
        · intro j e hj
          cases j with
          | zero => simp at hj; subst hj; exact le_refl _
          | succ k =>
            simp at hj
            exact hall e (List.getElem?_mem hj)
        · intro j e hj; omega
      · refine ⟨i + 1, d, by simpa using hi, lt_trans h hlt, ?_, ?_, hres⟩
        · intro j e hj
          cases j with
          | zero => simp at hj; subst hj; exact hlt.le
          | succ k => simp at hj; exact hmax k e hj
        · intro j e hji hj
          cases j with
          | zero => simp at hj; subst hj; exact hlt
          | succ k => simp at hj; exact hfirst k e (by omega) hj
    · rw [if_neg h]
      rcases ih b bo with ⟨hall, hres⟩ | ⟨i, d, hi, hlt, hmax, hfirst, hres⟩
      · left
        refine ⟨?_, hres⟩
        intro e he
        rcases List.mem_cons.mp he with rfl | he
        · exact not_lt.mp h
        · exact hall e he
      · right
        refine ⟨i + 1, d, by simpa using hi, hlt, ?_, ?_, hres⟩
        · intro j e hj
          cases j with
          | zero => simp at hj; subst hj; exact (lt_of_le_of_lt (not_lt.mp h) hlt).le
          | succ k => simp at hj; exact hmax k e hj
        · intro j e hji hj
          cases j with
          | zero => simp at hj; subst hj; exact lt_of_le_of_lt (not_lt.mp h) hlt
          | succ k => simp at hj; exact hfirst k e (by omega) hj

/-- A span has positive overlap exactly when its raw difference is positive. -/
theorem overlap_pos_iff {α : Type} [LinearOrder α] [Sub α] [Zero α] (start end_ : α)
    (d : diarize.Segment α) :
    0 < overlap start end_ d ↔ 0 < min end_ d.End - max start d.Start := by
  simp [overlap]

/-- The overlap of a span of positive raw difference is that difference. -/
theorem overlap_of_pos {α : Type} [LinearOrder α] [Sub α] [Zero α] (start end_ : α)
    (d : diarize.Segment α) (h : 0 < min end_ d.End - max start d.Start) :
    overlap start end_ d = min end_ d.End - max start d.Start := by
  simp [overlap, h.le]

/-- The earliest span of largest positive overlap is unique. -/
theorem IsSelectedSpan_unique {α : Type} [LinearOrder α] [Sub α] [Zero α]
    (start end_ : α) (l : List (diarize.Segment α)) (i i' : Nat)
    (d d' : diarize.Segment α) (h : IsSelectedSpan start end_ l i d)
    (h' : IsSelectedSpan start end_ l i' d') : i = i' ∧ d = d' := by
  obtain ⟨hi, _, hmax, hfirst⟩ := h
  obtain ⟨hi', _, hmax', hfirst'⟩ := h'
  have hii : i = i' := by
    rcases lt_trichotomy i i' with hlt | heq | hgt
    · exact absurd (hfirst' i d hlt hi) (not_lt.mpr (hmax i' d' hi'))
    · exact heq
    · exact absurd (hfirst i' d' hgt hi') (not_lt.mpr (hmax' i d hi))
  subst hii
  rw [hi] at hi'
  exact ⟨rfl, Option.some.inj hi'⟩

/-- The outcome of `matchSpeaker` in terms of the overlap of the specification:
either no span has positive overlap and the result is -1, or the result is the
id of the earliest span of largest positive overlap. -/
theorem matchSpeaker_cases {α : Type} [LinearOrder α] [Sub α] [Zero α] (start end_ : α)
    (l : List (diarize.Segment α)) :
    ((∀ d ∈ l, ¬ 0 < overlap start end_ d) ∧ matchSpeaker start end_ l = -1) ∨
      (∃ (i : Nat) (d : diarize.Segment α), IsSelectedSpan start end_ l i d ∧
        matchSpeaker start end_ l = d.SpeakerID) := by
  rcases matchSpeakerLoop_spec start end_ l (-1) 0 with
    ⟨hall, hres⟩ | ⟨i, d, hi, hlt, hmax, hfirst, hres⟩
  · left
    refine ⟨?_, hres⟩
    intro d hd
    rw [overlap_pos_iff]
    exact not_lt.mpr (hall d hd)
  · right
    refine ⟨i, d, ⟨hi, (overlap_pos_iff start end_ d).mpr hlt, ?_, ?_⟩, hres⟩
    · intro j e hj
      rw [overlap_of_pos start end_ d hlt]
      exact max_le hlt.le (hmax j e hj)
    · intro j e hji hj
      rw [overlap_of_pos start end_ d hlt]
      exact max_lt hlt (hfirst j e hji hj)

/-- Claim C1. For every interval `[start, end_]` and every list of diarization
spans, `matchSpeaker` returns -1 when no span has positive overlap
`max(0, min(end, dEnd) - max(start, dStart))`, in particular for the empty
list; when some span has positive overlap there is an earliest span of largest
positive overlap, and `matchSpeaker` returns the speaker id of that span. -/
theorem matchSpeaker_selects_first_max {α : Type} [LinearOrder α] [Sub α] [Zero α]
    (start end_ : α) (l : List (diarize.Segment α)) :
    ((∀ d ∈ l, ¬ 0 < overlap start end_ d) → matchSpeaker start end_ l = -1) ∧
      matchSpeaker start end_ ([] : List (diarize.Segment α)) = -1 ∧
      ((∃ d ∈ l, 0 < overlap start end_ d) →
        ∃ (i : Nat) (d : diarize.Segment α), IsSelectedSpan start end_ l i d) ∧
      (∀ (i : Nat) (d : diarize.Segment α), IsSelectedSpan start end_ l i d →
        matchSpeaker start end_ l = d.SpeakerID) := by
  refine ⟨?_, by simp [matchSpeaker, matchSpeakerLoop], ?_, ?_⟩
  · intro hnone
    rcases matchSpeaker_cases start end_ l with ⟨_, hres⟩ | ⟨i, d, hsel, _⟩
    · exact hres
    · exact absurd hsel.2.1 (hnone d (List.getElem?_mem hsel.1))
  · rintro ⟨d, hd, hpos⟩
    rcases matchSpeaker_cases start end_ l with ⟨hall, _⟩ | ⟨i, e, hsel, _⟩
    · exact absurd hpos (hall d hd)
    · exact ⟨i, e, hsel⟩
  · intro i d hsel
    rcases matchSpeaker_cases start end_ l with ⟨hall, _⟩ | ⟨i', e, hsel', hres⟩
    · exact absurd hsel.2.1 (hall d (List.getElem?_mem hsel.1))
    · rw [hres, (IsSelectedSpan_unique start end_ l i i' d e hsel hsel').2]

/-- Every element of the output of `buildVerboseJSON` is the loop body applied
to the segment at the same index. -/
theorem buildVerboseJSON_getElem? (segments : List whisper.Segment)
    (diarSegments : Option (List (diarize.Segment ℚ))) (k : Nat) :
    (buildVerboseJSON segments diarSegments).Segments[k]? =
      (segments[k]?).map (buildVerboseSegment diarSegments) := by
  simp [buildVerboseJSON]

/-- Claim C2, refuted as stated. For the segment `[1.0, 3.0]` and the spans
`[0.0, 2.0]` of speaker 0 and `[2.0, 4.0]` of speaker 1, in that order,
`matchSpeaker` does not return 1, and the speaker field `buildVerboseJSON`
writes for the segment of ticks `[100, 300]` is not 1. -/
theorem matchSpeaker_tie_not_second :
    matchSpeaker (1 : ℚ) 3 [⟨0, 2, 0⟩, ⟨2, 4, 1⟩] ≠ 1 ∧
      (buildVerboseJSON [⟨100, 300, ""⟩]
        (some [⟨0, 2, 0⟩, ⟨2, 4, 1⟩])).Segments.map (fun v => v.Speaker) ≠ [some 1] := by
  constructor <;>
    norm_num [buildVerboseJSON, buildVerboseSegment, csToSeconds, matchSpeaker,
      matchSpeakerLoop]

/-- Claim C2, amended. For the segment `[1.0, 3.0]` and the spans `[0.0, 2.0]`
of speaker 0 and `[2.0, 4.0]` of speaker 1, in that order, both overlaps are 1.0
and the first span wins the tie: `matchSpeaker` returns 0, and the speaker field
`buildVerboseJSON` writes for a segment of ticks `[100, 300]` is 0. -/
theorem matchSpeaker_tie_first (text : String) :
    overlap (1 : ℚ) 3 ⟨0, 2, 0⟩ = 1 ∧ overlap (1 : ℚ) 3 ⟨2, 4, 1⟩ = 1 ∧
      matchSpeaker (1 : ℚ) 3 [⟨0, 2, 0⟩, ⟨2, 4, 1⟩] = 0 ∧
      (buildVerboseJSON [⟨100, 300, text⟩]
        (some [⟨0, 2, 0⟩, ⟨2, 4, 1⟩])).Segments.map (fun v => v.Speaker) = [some 0] := by
  refine ⟨?_, ?_, ?_, ?_⟩ <;>
    norm_num [overlap, buildVerboseJSON, buildVerboseSegment, csToSeconds, matchSpeaker,
      matchSpeakerLoop]

/-- Claim C3, refuted as stated. The segment of ticks `[0, 100]` overlaps the
span `[0.0, 1.0]` of speaker id -2 by 1.0, and `buildVerboseJSON` writes no
speaker field for it. -/
theorem buildVerboseJSON_negative_id_dropped :
    0 < overlap (csToSeconds 0) (csToSeconds 100) (⟨0, 1, -2⟩ : diarize.Segment ℚ) ∧
      (buildVerboseJSON [⟨0, 100, ""⟩]
        (some [⟨0, 1, -2⟩])).Segments.map (fun v => v.Speaker) = [none] := by
  constructor <;>
    norm_num [overlap, buildVerboseJSON, buildVerboseSegment, csToSeconds, matchSpeaker,
      matchSpeakerLoop]

/-- Claim C3, amended. For every segment list and every span list, a segment
(at index `k`) with which some span has positive overlap has an earliest span
of largest positive overlap; the output element at index `k` carries that
span's speaker id as its speaker field when the id is non-negative, and no
speaker field when the id is negative. -/
theorem buildVerboseJSON_speaker_of_overlap (segments : List whisper.Segment)
    (ds : List (diarize.Segment ℚ)) (k : Nat) (seg : whisper.Segment)
    (hk : segments[k]? = some seg)
    (hpos : ∃ d ∈ ds, 0 < overlap (csToSeconds seg.Start) (csToSeconds seg.End) d) :
    ∃ (i : Nat) (d : diarize.Segment ℚ) (v : verboseSegment),
      IsSelectedSpan (csToSeconds seg.Start) (csToSeconds seg.End) ds i d ∧
      (buildVerboseJSON segments (some ds)).Segments[k]? = some v ∧
      (0 ≤ d.SpeakerID → v.Speaker = some d.SpeakerID) ∧
      (d.SpeakerID < 0 → v.Speaker = none) := by
  obtain ⟨e, he, hepos⟩ := hpos
  rcases matchSpeaker_cases (csToSeconds seg.Start) (csToSeconds seg.End) ds with
    ⟨hall, _⟩ | ⟨i, d, hsel, hres⟩
  · exact absurd hepos (hall e he)
  · refine ⟨i, d, buildVerboseSegment (some ds) seg, hsel, ?_, ?_, ?_⟩
    · rw [buildVerboseJSON_getElem?, hk]; rfl
    · intro hid
      simp [buildVerboseSegment, hres, hid]
    · intro hid
      simp [buildVerboseSegment, hres, not_le.mpr hid]

/-- Claim C3, amended, at a concrete input: two segments and two spans, the
second segment overlapping only the span of speaker 7. -/
theorem buildVerboseJSON_speaker_of_overlap_witness :
    ∃ (i : Nat) (d : diarize.Segment ℚ) (v : verboseSegment),
      IsSelectedSpan (csToSeconds 200) (csToSeconds 300) [⟨0, 1, 4⟩, ⟨2, 5, 7⟩] i d ∧
      (buildVerboseJSON [⟨0, 100, "a"⟩, ⟨200, 300, "b"⟩]
        (some [⟨0, 1, 4⟩, ⟨2, 5, 7⟩])).Segments[1]? = some v ∧
      (0 ≤ d.SpeakerID → v.Speaker = some d.SpeakerID) ∧
      (d.SpeakerID < 0 → v.Speaker = none) :=
  buildVerboseJSON_speaker_of_overlap [⟨0, 100, "a"⟩, ⟨200, 300, "b"⟩]
    [⟨0, 1, 4⟩, ⟨2, 5, 7⟩] 1 ⟨200, 300, "b"⟩ (by simp)
    ⟨⟨2, 5, 7⟩, by simp, by norm_num [overlap, csToSeconds]⟩

/-- Claim C4. For every segment list and every span list, nil (`none`) and empty
included, a segment (at index `k`) with which no span has positive overlap has
no speaker field in the output of `buildVerboseJSON`: the `Speaker` pointer of
the element at index `k` is nil. -/
theorem buildVerboseJSON_no_speaker (segments : List whisper.Segment)
    (diarSegments : Option (List (diarize.Segment ℚ))) (k : Nat) (seg : whisper.Segment)
    (hk : segments[k]? = some seg)
    (hno : ∀ ds, diarSegments = some ds →
      ∀ d ∈ ds, ¬ 0 < overlap (csToSeconds seg.Start) (csToSeconds seg.End) d) :
    ∃ v : verboseSegment,
      (buildVerboseJSON segments diarSegments).Segments[k]? = some v ∧
      v.Speaker = none ∧ v.Text = seg.Text ∧
      v.Start = csToSeconds seg.Start ∧ v.End = csToSeconds seg.End := by
  refine ⟨buildVerboseSegment diarSegments seg, ?_, ?_, ?_, ?_, ?_⟩
  · rw [buildVerboseJSON_getElem?, hk]; rfl
  · cases diarSegments with
    | none => rfl
    | some ds =>
      rcases matchSpeaker_cases (csToSeconds seg.Start) (csToSeconds seg.End) ds with
        ⟨_, hres⟩ | ⟨i, d, hsel, _⟩
      · simp [buildVerboseSegment, hres]
      · exact absurd hsel.2.1 (hno ds rfl d (List.getElem?_mem hsel.1))
  all_goals
    cases diarSegments with
    | none => rfl
    | some ds => simp only [buildVerboseSegment]; split <;> rfl

/-- Claim C4 at a concrete input: the segment of ticks `[0, 100]` and the single
span `[5.0, 6.0]`, which does not overlap it. -/
theorem buildVerboseJSON_no_speaker_witness :
    ∃ v : verboseSegment,
      (buildVerboseJSON [⟨0, 100, "a"⟩] (some [⟨5, 6, 0⟩])).Segments[0]? = some v ∧
      v.Speaker = none ∧ v.Text = "a" ∧
      v.Start = csToSeconds 0 ∧ v.End = csToSeconds 100 :=
  buildVerboseJSON_no_speaker [⟨0, 100, "a"⟩] (some [⟨5, 6, 0⟩]) 0 ⟨0, 100, "a"⟩ (by simp)
    (by
      intro ds hds d hd
      cases hds
      simp only [List.mem_singleton] at hd
      subst hd
      norm_num [overlap, csToSeconds])

/-- On a non-negative integer `%0wd` prints the zero-padded decimal digits. -/
theorem fmtZeroPad_natCast (w n : Nat) : fmtZeroPad w (n : Int) = zeroPadded w n := by
  simp [fmtZeroPad, zeroPadded]

/-- The product `cs * 10` of a tick value within the bound does not wrap. -/
theorem wrapInt64_ticks (t : Nat) (h : t ≤ 922337203685477580) :
    wrapInt64 ((t : Int) * 10) = ((10 * t : Nat) : Int) := by
  unfold wrapInt64
  push_cast
  omega

/-- The hours, minutes, seconds and milliseconds the two timestamp functions
compute from a non-negative number of milliseconds that fits in int64. -/
theorem hms_of_millis (M : Nat) :
    (((M : Int).tdiv 1000).tdiv 60).tdiv 60 = ((M / 3600000 : Nat) : Int) ∧
      (((M : Int).tdiv 1000).tdiv 60).tmod 60 = ((M / 60000 % 60 : Nat) : Int) ∧
      ((M : Int).tdiv 1000).tmod 60 = ((M / 1000 % 60 : Nat) : Int) ∧
      (M : Int).tmod 1000 = ((M % 1000 : Nat) : Int) := by
  have h1 : (M : Int).tdiv 1000 = ((M / 1000 : Nat) : Int) := rfl
  have h2 : ((M / 1000 : Nat) : Int).tdiv 60 = ((M / 1000 / 60 : Nat) : Int) := rfl
  have h3 : ((M / 1000 / 60 : Nat) : Int).tdiv 60 = ((M / 1000 / 60 / 60 : Nat) : Int) := rfl
  have h4 : ((M / 1000 / 60 : Nat) : Int).tmod 60 = ((M / 1000 / 60 % 60 : Nat) : Int) := rfl
  have h5 : ((M / 1000 : Nat) : Int).tmod 60 = ((M / 1000 % 60 : Nat) : Int) := rfl
  have h6 : (M : Int).tmod 1000 = ((M % 1000 : Nat) : Int) := rfl
  rw [h1, h2, h3, h4, h5, h6]
  refine ⟨?_, ?_, rfl, rfl⟩
  · congr 1; omega
  · congr 1; omega

/-- Claim C5, refuted as stated. The tick value 922337203685477581 is a
non-negative int64, `cs * 10` wraps to a negative number of milliseconds, and
the SRT timestamp printed is not the one of `10 * t` milliseconds. -/
theorem csToSRTTime_wraps :
    csToSRTTime 922337203685477581 = "-2562047788015:-12:-55,-806" ∧
      timestampOfMillis "," (10 * 922337203685477581) = "2562047788015:12:55,810" ∧
      csToSRTTime 922337203685477581 ≠
        timestampOfMillis "," (10 * 922337203685477581) := by
  decide

/-- Claim C5, amended. For every tick value `t` with `0 ≤ t ≤ 922337203685477580`
(so that `10 * t` fits in int64), `csToSRTTime t` is `HH:MM:SS,mmm` and
`csToVTTTime t` is `HH:MM:SS.mmm` for `M = 10 * t` milliseconds, with
`mmm = M mod 1000`, `SS = (M div 1000) mod 60`, `MM = (M div 60000) mod 60`,
`HH = M div 3600000`, zero-padded to 3, 2, 2 and 2 digits; the two renderings
differ only in the separator; and `t = 12345` gives `00:02:03,450` and
`00:02:03.450`. -/
theorem csTo_time_of_ticks (t : Nat) (h : t ≤ 922337203685477580) :
    csToSRTTime (t : Int) = timestampOfMillis "," (10 * t) ∧
      csToVTTTime (t : Int) = timestampOfMillis "." (10 * t) ∧
      (∃ p q : String, csToSRTTime (t : Int) = p ++ "," ++ q ∧
        csToVTTTime (t : Int) = p ++ "." ++ q) ∧
      csToSRTTime 12345 = "00:02:03,450" ∧ csToVTTTime 12345 = "00:02:03.450" := by
  obtain ⟨hh, hm, hs, hms⟩ := hms_of_millis (10 * t)
  have hsrt : csToSRTTime (t : Int) = timestampOfMillis "," (10 * t) := by
    simp only [csToSRTTime, wrapInt64_ticks t h, hh, hm, hs, hms, fmtZeroPad_natCast,
      timestampOfMillis]
  have hvtt : csToVTTTime (t : Int) = timestampOfMillis "." (10 * t) := by
    simp only [csToVTTTime, wrapInt64_ticks t h, hh, hm, hs, hms, fmtZeroPad_natCast,
      timestampOfMillis]
  refine ⟨hsrt, hvtt, ⟨_, _, hsrt, hvtt⟩, by decide, by decide⟩

/-- Claim C5, amended, at the tick value 360000 (one hour). -/
theorem csTo_time_of_ticks_witness :
    csToSRTTime ((360000 : Nat) : Int) = timestampOfMillis "," (10 * 360000) ∧
      csToVTTTime ((360000 : Nat) : Int) = timestampOfMillis "." (10 * 360000) ∧
      (∃ p q : String, csToSRTTime ((360000 : Nat) : Int) = p ++ "," ++ q ∧
        csToVTTTime ((360000 : Nat) : Int) = p ++ "." ++ q) ∧
      csToSRTTime 12345 = "00:02:03,450" ∧ csToVTTTime 12345 = "00:02:03.450" :=
  csTo_time_of_ticks 360000 (by decide)

/-- A prefix of the accumulator of `String.intercalate` stays a prefix of its
result. -/
theorem intercalate_go_append (p acc sep : String) (l : List String) :
    String.intercalate.go (p ++ acc) sep l = p ++ String.intercalate.go acc sep l := by
  induction l generalizing acc with
  | nil => rfl
  | cons a rest ih =>
    simp only [String.intercalate.go]
    rw [← ih, String.append_assoc p acc sep, String.append_assoc p (acc ++ sep) a]

/-- The loop of `formatSRT` past the first entry appends a newline and the next
numbered entry for each remaining segment. -/
theorem formatSRTLoop_succ (rest : List whisper.Segment) (i : Nat) (sb : String) :
    formatSRTLoop rest (i + 1) sb =
      String.intercalate.go sb "\n"
        ((rest.enumFrom (i + 2)).map (fun p => srtEntry p.1 p.2)) := by
  induction rest generalizing i sb with
  | nil => rfl
  | cons seg rest ih =>
    simp only [formatSRTLoop, List.enumFrom, List.map, String.intercalate.go]
    rw [if_pos (Nat.succ_pos i), ih]
    rfl

/-- The loop of `formatVTT` past the first cue appends a newline and the next
cue for each remaining segment. -/
theorem formatVTTLoop_succ (rest : List whisper.Segment) (i : Nat) (sb : String) :
    formatVTTLoop rest (i + 1) sb =
      String.intercalate.go sb "\n" (rest.map vttCue) := by
  induction rest generalizing i sb with
  | nil => rfl
  | cons seg rest ih =>
    simp only [formatVTTLoop, List.map, String.intercalate.go]
    rw [if_pos (Nat.succ_pos i), ih]
    rfl

/-- Claim C6. For every segment list, `formatSRT` returns the entries
`k\nSTART --> END\nTEXT\n` for `k = 1..n` in input order, `START` and `END`
the SRT timestamps of the segment and `TEXT` its text trimmed of surrounding
white space, joined by one newline between consecutive entries (the blank
line), with nothing before the first or after the last; for the empty list it
returns the empty string. -/
theorem formatSRT_eq_entries (segments : List whisper.Segment) :
    formatSRT segments =
        String.intercalate "\n" ((segments.enumFrom 1).map (fun p => srtEntry p.1 p.2)) ∧
      ((segments.enumFrom 1).map (fun p => srtEntry p.1 p.2)).length = segments.length ∧
      (∀ (k : Nat) (seg : whisper.Segment), segments[k]? = some seg →
        ((segments.enumFrom 1).map (fun p => srtEntry p.1 p.2))[k]? =
          some (Nat.repr (k + 1) ++ "\n" ++ csToSRTTime seg.Start ++ " --> " ++
            csToSRTTime seg.End ++ "\n" ++ TrimSpace seg.Text ++ "\n")) ∧
      formatSRT [] = "" := by
  refine ⟨?_, by simp, ?_, rfl⟩
  · cases segments with
    | nil => rfl
    | cons seg rest =>
      simp only [formatSRT, formatSRTLoop, List.enumFrom, List.map, String.intercalate]
      rw [if_neg (Nat.lt_irrefl 0), formatSRTLoop_succ, String.empty_append]
      rfl
  · intro k seg hk
    simp [List.getElem?_enumFrom, hk, srtEntry, Nat.add_comm]

/-- Claim C7. For every segment list, the empty one included, `formatVTT`
returns the header `WEBVTT` and a blank line, followed by one cue
`START --> END\nTEXT\n` per segment in input order, without a cue number,
`START` and `END` the VTT timestamps and `TEXT` the text trimmed of surrounding
white space, joined by one newline between consecutive cues (the blank line). -/
theorem formatVTT_eq_cues (segments : List whisper.Segment) :
    formatVTT segments = "WEBVTT\n\n" ++ String.intercalate "\n" (segments.map vttCue) ∧
      (∀ (k : Nat) (seg : whisper.Segment), segments[k]? = some seg →
        (segments.map vttCue)[k]? =
          some (csToVTTTime seg.Start ++ " --> " ++ csToVTTTime seg.End ++ "\n" ++
            TrimSpace seg.Text ++ "\n")) ∧
      formatVTT [] = "WEBVTT\n\n" := by
  refine ⟨?_, ?_, rfl⟩
  · cases segments with
    | nil => rfl
    | cons seg rest =>
      simp only [formatVTT, formatVTTLoop, List.map, String.intercalate]
      rw [if_neg (Nat.lt_irrefl 0), formatVTTLoop_succ, intercalate_go_append]
      rfl
  · intro k seg hk
    simp [hk, vttCue]

/-- The concatenation loop of `Text` appends the joined texts to the builder. -/
theorem TextLoop_eq_join (segments : List whisper.Segment) (sb : String) :
    whisper.TextLoop segments sb = sb ++ String.join (segments.map (fun seg => seg.Text)) := by
  induction segments generalizing sb with
  | nil => simp [whisper.TextLoop, String.join]
  | cons seg rest ih =>
    have hj : ∀ (l : List String) (acc : String),
        List.foldl (fun r x => r ++ x) acc l = acc ++ List.foldl (fun r x => r ++ x) "" l := by
      intro l
      induction l with
      | nil => intro acc; simp
      | cons a t iht =>
        intro acc
        simp only [List.foldl_cons]
        rw [iht (acc ++ a), iht ("" ++ a), String.empty_append, String.append_assoc]
    simp only [whisper.TextLoop, List.map, String.join, List.foldl_cons]
    rw [ih, String.join, hj _ ("" ++ seg.Text), String.empty_append, String.append_assoc]

/-- The method `Text` returns the texts of the segments joined in order. -/
theorem Text_eq_join (segments : List whisper.Segment) :
    whisper.Text segments = String.join (segments.map (fun seg => seg.Text)) := by
  rw [whisper.Text, TextLoop_eq_join, String.empty_append]

/-- The streaming callbacks append one event per engine callback, in order. -/
theorem streamCallbacks_foldl (calls : List whisper.Callback) (evs : List StreamEvent) :
    calls.foldl (fun acc call => streamCallbacks.invoke call acc) evs =
      evs ++ calls.map callbackEvent := by
  induction calls generalizing evs with
  | nil => simp
  | cons call rest ih =>
    rw [List.foldl_cons, ih]
    cases call <;>
      simp [whisper.StreamCallbacks.invoke, streamCallbacks, callbackEvent]

/-- No event written for an engine callback is terminal. -/
theorem callbackEvent_not_terminal (call : whisper.Callback) :
    (callbackEvent call).isTerminal = false := by
  cases call <;> rfl

/-- What the streaming handler gets back from `TranscribeStream`: the events
of the callbacks of the run, and the result or the error. -/
theorem TranscribeStream_streamCallbacks (ctx : Nat) (eng : whisper.Engine)
    (samples : whisper.Samples) (opts : whisper.TranscribeOptions) :
    whisper.Context.TranscribeStream ⟨some ctx⟩ eng samples opts streamCallbacks [] =
      ((eng.whisper_full ctx (whisper.fullParams eng opts true) samples).calls.map
          callbackEvent,
        if (eng.whisper_full ctx (whisper.fullParams eng opts true) samples).ret = 0 then
          .ok (eng.whisper_full ctx (whisper.fullParams eng opts true) samples).segments
        else
          .error ("whisper: transcription failed with code " ++
            toString (eng.whisper_full ctx (whisper.fullParams eng opts true) samples).ret)) := by
  have hcb : (streamCallbacks.OnProgress.isSome || streamCallbacks.OnSegment.isSome ||
      streamCallbacks.ShouldAbort) = true := rfl
  simp only [whisper.Context.TranscribeStream, hcb, streamCallbacks_foldl, List.nil_append]
  by_cases h : (eng.whisper_full ctx (whisper.fullParams eng opts true) samples).ret = 0
  · simp [h]
  · simp [h]

/-- Claim C8. For every request, world and server state: when the mutex is
held, `handleTranscription` answers 429 whether or not a model is loaded; when
it is free and no model is loaded, it answers 503; in both cases it has made no
external call (the upload is not read, audio ingestion does not run) and the
outcome is the same for every other request and world. -/
theorem handleTranscription_busy_or_unloaded (s : Server) (w : World) (r : Request) :
    (s.locked = true →
      (handleTranscription s w r).2.response.status = 429 ∧
      (handleTranscription s w r).2.trace = [] ∧
      ∀ (w' : World) (r' : Request),
        (handleTranscription s w' r').2 = (handleTranscription s w r).2) ∧
    (s.locked = false → s.ctx = none →
      (handleTranscription s w r).2.response.status = 503 ∧
      (handleTranscription s w r).2.trace = [] ∧
      ∀ (w' : World) (r' : Request),
        (handleTranscription s w' r').2 = (handleTranscription s w r).2) := by
  constructor
  · intro hl
    simp [handleTranscription, hl, writeError]
  · intro hl hc
    simp [handleTranscription, handleTranscriptionLocked, hl, hc, writeError]

/-- Claim C9. For every run of the streaming handler that reaches the engine
call (the writer can flush) in which the abort flag is not set: the events
written are the events of the engine callbacks in the order of the callbacks,
followed by one event, which is the only terminal one: a `result` event with
the concatenation of the texts of the returned segments when the engine
returns code 0, an `error` event with the failure message otherwise (also when
the context pointer is nil, where no callback is made). -/
theorem streaming_events_not_aborted (c : whisper.Context) (w : World)
    (samples : whisper.Samples) (opts : whisper.TranscribeOptions)
    (hfl : w.flusher = true) (hab : w.aborted = false) :
    ∃ (evs : List StreamEvent) (last : StreamEvent),
      (handleStreamingTranscription c w samples opts).body = .ndjson (evs ++ [last]) ∧
      (∀ e ∈ evs, e.isTerminal = false) ∧ last.isTerminal = true ∧
      (c.ctx = none → evs = [] ∧ last = .error "whisper: context is nil") ∧
      (∀ ctx, c.ctx = some ctx →
        evs = (w.engine.whisper_full ctx (whisper.fullParams w.engine opts true)
          samples).calls.map callbackEvent ∧
        ((w.engine.whisper_full ctx (whisper.fullParams w.engine opts true) samples).ret = 0 →
          last = .result (String.join
            ((w.engine.whisper_full ctx (whisper.fullParams w.engine opts true)
              samples).segments.map (fun seg => seg.Text)))) ∧
        ((w.engine.whisper_full ctx (whisper.fullParams w.engine opts true) samples).ret ≠ 0 →
          last = .error ("whisper: transcription failed with code " ++
            toString (w.engine.whisper_full ctx (whisper.fullParams w.engine opts true)
              samples).ret))) := by
  obtain ⟨cctx⟩ := c
  cases cctx with
  | none =>
    refine ⟨[], .error "whisper: context is nil", ?_, by simp, rfl, fun _ => ⟨rfl, rfl⟩, ?_⟩
    · simp [handleStreamingTranscription, hfl, hab, whisper.Context.TranscribeStream]
    · intro ctx h; cases h
  | some ctx =>
    by_cases hret :
        (w.engine.whisper_full ctx (whisper.fullParams w.engine opts true) samples).ret = 0
    · refine ⟨(w.engine.whisper_full ctx (whisper.fullParams w.engine opts true)
          samples).calls.map callbackEvent, .result (String.join
        ((w.engine.whisper_full ctx (whisper.fullParams w.engine opts true)
          samples).segments.map (fun seg => seg.Text))), ?_, ?_, rfl, ?_, ?_⟩
      · simp only [handleStreamingTranscription, hfl, TranscribeStream_streamCallbacks,
          hret, Text_eq_join]
        rfl
      · intro e he
        obtain ⟨call, _, rfl⟩ := List.mem_map.mp he
        exact callbackEvent_not_terminal call
      · intro h; cases h
      · intro ctx' h
        cases h
        exact ⟨rfl, fun _ => rfl, fun h => absurd hret h⟩
    · refine ⟨(w.engine.whisper_full ctx (whisper.fullParams w.engine opts true)
          samples).calls.map callbackEvent,
        .error ("whisper: transcription failed with code " ++
        toString (w.engine.whisper_full ctx (whisper.fullParams w.engine opts true)
          samples).ret), ?_, ?_, rfl, ?_, ?_⟩
      · simp only [handleStreamingTranscription, hfl, TranscribeStream_streamCallbacks,
          hret, hab]
        rfl
      · intro e he
        obtain ⟨call, _, rfl⟩ := List.mem_map.mp he
        exact callbackEvent_not_terminal call
      · intro h; cases h
      · intro ctx' h
        cases h
        exact ⟨rfl, fun h => absurd h hret, fun _ => rfl⟩

/-- Claim C9 at a concrete input: the sample engine makes one progress callback
and returns one segment of text `a`; the flag is not set. -/
theorem streaming_events_not_aborted_witness :
    (handleStreamingTranscription ⟨some 1⟩ (sampleWorld sampleEngine false) ⟨0, []⟩
      sampleOptions).body = .ndjson [.progress 50, .result "a"] := by
  obtain ⟨evs, last, hbody, _, _, _, hsome⟩ :=
    streaming_events_not_aborted ⟨some 1⟩ (sampleWorld sampleEngine false) ⟨0, []⟩
      sampleOptions rfl rfl
  obtain ⟨hevs, hok, _⟩ := hsome 1 rfl
  rw [hbody, hevs, hok rfl]
  rfl

/-- Claim C10, refuted as stated. The abort flag is set when the engine call
returns, the engine call has succeeded, and the stream ends with a `result`
event. -/
theorem streaming_aborted_success_writes_result :
    (sampleWorld sampleEngine true).aborted = true ∧
      (handleStreamingTranscription ⟨some 1⟩ (sampleWorld sampleEngine true) ⟨0, []⟩
        sampleOptions).body = .ndjson [.progress 50, .result "a"] ∧
      (StreamEvent.result "a").isTerminal = true := by
  refine ⟨rfl, ?_, rfl⟩
  simp only [handleStreamingTranscription, TranscribeStream_streamCallbacks, sampleWorld]
  rfl

/-- Claim C10, amended. For every run of the streaming handler that reaches the
engine call (the writer can flush) in which the abort flag is set when the
engine call returns: when the engine call fails, the events written are the
events of the engine callbacks, in order, none of them terminal, and nothing
more; when the engine call returns code 0, the `result` event follows them. -/
theorem streaming_events_aborted (c : whisper.Context) (w : World)
    (samples : whisper.Samples) (opts : whisper.TranscribeOptions)
    (hfl : w.flusher = true) (hab : w.aborted = true) :
    (c.ctx = none →
      (handleStreamingTranscription c w samples opts).body = .ndjson []) ∧
    (∀ ctx, c.ctx = some ctx →
      (∀ e ∈ (w.engine.whisper_full ctx (whisper.fullParams w.engine opts true)
          samples).calls.map callbackEvent, e.isTerminal = false) ∧
      ((w.engine.whisper_full ctx (whisper.fullParams w.engine opts true) samples).ret ≠ 0 →
        (handleStreamingTranscription c w samples opts).body =
          .ndjson ((w.engine.whisper_full ctx (whisper.fullParams w.engine opts true)
            samples).calls.map callbackEvent)) ∧
      ((w.engine.whisper_full ctx (whisper.fullParams w.engine opts true) samples).ret = 0 →
        (handleStreamingTranscription c w samples opts).body =
          .ndjson ((w.engine.whisper_full ctx (whisper.fullParams w.engine opts true)
            samples).calls.map callbackEvent ++
            [.result (String.join
              ((w.engine.whisper_full ctx (whisper.fullParams w.engine opts true)
                samples).segments.map (fun seg => seg.Text)))]))) := by
  obtain ⟨cctx⟩ := c
  constructor
  · intro h
    simp only at h
    subst h
    simp [handleStreamingTranscription, hfl, hab, whisper.Context.TranscribeStream]
  · intro ctx h
    simp only at h
    subst h
    refine ⟨?_, ?_, ?_⟩
    · intro e he
      obtain ⟨call, _, rfl⟩ := List.mem_map.mp he
      exact callbackEvent_not_terminal call
    · intro hret
      simp only [handleStreamingTranscription, hfl, TranscribeStream_streamCallbacks, hret,
        hab]
      rfl
    · intro hret
      simp only [handleStreamingTranscription, hfl, TranscribeStream_streamCallbacks, hret,
        Text_eq_join]
      rfl

/-- Claim C10, amended, at a concrete input: the engine makes one progress
callback and fails with code 7 while the flag is set; only the progress event
is written. -/
theorem streaming_events_aborted_witness :
    (handleStreamingTranscription ⟨some 1⟩ (sampleWorld failingEngine true) ⟨0, []⟩
      sampleOptions).body = .ndjson [.progress 50] :=
  ((streaming_events_aborted ⟨some 1⟩ (sampleWorld failingEngine true) ⟨0, []⟩
    sampleOptions rfl rfl).2 1 rfl).2.1 (by decide)

/-- The updates `TranscribeStream` makes to the default parameters leave the
strategy the library put there for the chosen strategy. -/
theorem fullParams_strategy (eng : whisper.Engine) (opts : whisper.TranscribeOptions)
    (hasCallbacks : Bool) :
    (whisper.fullParams eng opts hasCallbacks).strategy =
      (eng.whisper_full_default_params (whisper.chosenStrategy opts)).strategy := by
  simp only [whisper.fullParams, whisper.chosenStrategy, apply_ite whisper.FullParams.strategy]
  simp

/-- Claim C11, the code at the failing input. A request with
`sampling_strategy = beam_search` and no `beam_size` (or `beam_size = 0`) makes
`handleTranscription` call `whisper_full` with the greedy strategy (the probe
engine answers with the name of the strategy it received); only with a positive
`beam_size` is the strategy beam search. The parameters passed on are the
defaults of the strategy chosen, which is beam search exactly when
`SamplingGreedy` is false and `BeamSize > 0`. -/
theorem beam_search_without_beam_size_runs_greedy :
    (handleTranscription idleServer (sampleWorld probeEngine false)
        (formRequest [("sampling_strategy", "beam_search")])).2.response.body =
        .json "greedy" ∧
      (handleTranscription idleServer (sampleWorld probeEngine false)
        (formRequest [("sampling_strategy", "beam_search"),
          ("beam_size", "0")])).2.response.body = .json "greedy" ∧
      (handleTranscription idleServer (sampleWorld probeEngine false)
        (formRequest [("sampling_strategy", "beam_search"),
          ("beam_size", "5")])).2.response.body = .json "beam_search" ∧
      (handleTranscription idleServer (sampleWorld probeEngine false)
        (formRequest [("sampling_strategy", "greedy"),
          ("beam_size", "5")])).2.response.body = .json "greedy" ∧
      (∀ (eng : whisper.Engine) (opts : whisper.TranscribeOptions) (hasCallbacks : Bool),
        (whisper.fullParams eng opts hasCallbacks).strategy =
          (eng.whisper_full_default_params (whisper.chosenStrategy opts)).strategy) ∧
      (∀ opts : whisper.TranscribeOptions,
        whisper.chosenStrategy opts = .WHISPER_SAMPLING_BEAM_SEARCH ↔
          (opts.SamplingGreedy = false ∧ 0 < opts.BeamSize)) := by
  refine ⟨rfl, rfl, rfl, rfl, fullParams_strategy, ?_⟩
  intro opts
  by_cases hg : opts.SamplingGreedy = true <;> by_cases hb : 0 < opts.BeamSize <;>
    simp [whisper.chosenStrategy, hg, hb]

/-- The loop of `buildVerboseJSON` over a slice long enough assigns the
elements from index `i` on and leaves the others. -/
theorem fillVerboseSegments_eq (diarSegments : Option (List (diarize.Segment ℚ)))
    (rest : List whisper.Segment) (i : Nat) (v : List verboseSegment)
    (h : i + rest.length ≤ v.length) :
    fillVerboseSegments diarSegments rest i v =
      v.take i ++ rest.map (buildVerboseSegment diarSegments) ++ v.drop (i + rest.length) := by
  induction rest generalizing i v with
  | nil => simp [fillVerboseSegments]
  | cons seg rest ih =>
    simp only [List.length_cons] at h
    have hi : i < v.length := by omega
    rw [fillVerboseSegments, ih (i + 1) _ (by rw [List.length_set]; omega)]
    rw [List.drop_set_of_lt _ _ (by omega : i < i + 1 + rest.length)]
    have ht : (v.set i (buildVerboseSegment diarSegments seg)).take (i + 1) =
        v.take i ++ [buildVerboseSegment diarSegments seg] := by
      rw [List.set_eq_take_cons_drop _ hi, List.take_append_eq_append_take]
      simp [List.length_take, Nat.min_eq_left hi.le]
    rw [ht]
    simp [List.length_cons, Nat.add_assoc, Nat.add_comm 1]

/-- The slice `vSegs` is never nil and holds the elements of `Segments`. -/
theorem vSegs_eq (segments : List whisper.Segment)
    (diarSegments : Option (List (diarize.Segment ℚ))) :
    vSegs segments diarSegments = some (buildVerboseJSON segments diarSegments).Segments := by
  simp [vSegs, make, buildVerboseJSON, fillVerboseSegments_eq]

/-- Claim C12. `buildVerboseJSON` applied to an empty segment list yields the
empty string as text and a `Segments` slice that is empty and not nil, which
`encoding/json` writes as `[]` and not as `null`; `TranscribeResult.Text` of an
empty segment list is the empty string. -/
theorem buildVerboseJSON_empty (diarSegments : Option (List (diarize.Segment ℚ))) :
    (buildVerboseJSON [] diarSegments).Text = "" ∧
      (buildVerboseJSON [] diarSegments).Segments = [] ∧
      vSegs [] diarSegments = some [] ∧
      vSegs [] diarSegments ≠ none ∧
      (∀ enc : verboseSegment → String, encodeSlice enc (vSegs [] diarSegments) = "[]" ∧
        encodeSlice enc (vSegs [] diarSegments) ≠ "null") ∧
      whisper.Text [] = "" := by
  have hv : vSegs [] diarSegments = some [] := by rw [vSegs_eq]; rfl
  refine ⟨rfl, rfl, hv, by simp [hv], ?_, rfl⟩
  intro enc
  rw [hv]
  have he : encodeSlice enc (some []) = "[]" := rfl
  rw [he]
  exact ⟨rfl, by decide⟩

/-- The loop of `Text` over a concatenation runs over the first list, then over
the second. -/
theorem TextLoop_append (a b : List whisper.Segment) (sb : String) :
    whisper.TextLoop (a ++ b) sb = whisper.TextLoop b (whisper.TextLoop a sb) := by
  induction a generalizing sb with
  | nil => rfl
  | cons seg rest ih => exact ih (sb ++ seg.Text)

/-- Claim C13. For every segment list, `TranscribeResult.Text` is the
concatenation of the texts of the segments in input order, with no separator
and no trimming, and for all lists `a` and `b`,
`Text (a ++ b) = Text a ++ Text b`. -/
theorem Text_append (a b : List whisper.Segment) :
    whisper.Text a = String.join (a.map (fun seg => seg.Text)) ∧
      whisper.Text (a ++ b) = whisper.Text a ++ whisper.Text b ∧
      whisper.Text [⟨0, 100, " a "⟩, ⟨100, 200, "\tb\n"⟩] = " a \tb\n" := by
  refine ⟨Text_eq_join a, ?_, by decide⟩
  rw [whisper.Text, TextLoop_append, TextLoop_eq_join, ← Text_eq_join]
  rfl

/-- The decimal digit character of a number below ten is a digit that reads
back as the number. -/
theorem digitChar_lt_ten (k : Nat) (h : k < 10) :
    (Nat.digitChar k).isDigit = true ∧ (Nat.digitChar k).toNat - 48 = k := by
  interval_cases k <;> exact ⟨rfl, rfl⟩

/-- The digits `Nat.toDigitsCore` puts before `ds`, with fuel enough: read back
in base ten they give `n`, they are all decimal digits, and there is a first
one. -/
theorem toDigitsCore_spec (f n : Nat) (ds : List Char) (h : n < f) :
    (Nat.toDigitsCore 10 f n ds).foldl (fun acc ch => acc * 10 + (ch.toNat - 48)) 0 =
        ds.foldl (fun acc ch => acc * 10 + (ch.toNat - 48)) n ∧
      (Nat.toDigitsCore 10 f n ds).all Char.isDigit = ds.all Char.isDigit ∧
      ∃ c rest, Nat.toDigitsCore 10 f n ds = c :: rest ∧ c.isDigit = true := by
  induction f generalizing n ds with
  | zero => omega
  | succ f ih =>
    have hd := digitChar_lt_ten (n % 10) (Nat.mod_lt n (by decide))
    simp only [Nat.toDigitsCore]
    by_cases h0 : n / 10 = 0
    · rw [if_pos h0]
      refine ⟨?_, ?_, _, _, rfl, hd.1⟩
      · simp only [List.foldl_cons, hd.2]
        congr 1
        omega
      · simp [hd.1]
    · rw [if_neg h0]
      obtain ⟨h1, h2, c, rest, h3, h4⟩ := ih (n / 10) (Nat.digitChar (n % 10) :: ds) (by omega)
      refine ⟨?_, ?_, c, rest, h3, h4⟩
      · rw [h1]
        simp only [List.foldl_cons, hd.2]
        congr 1
        omega
      · rw [h2]
        simp [hd.1]

/-- `Atoi` reads the decimal representation of a natural number within the
range of int64 back as that number. -/
theorem Atoi_repr (n : Nat) (h : n ≤ 9223372036854775807) :
    Atoi (Nat.repr n) = some (n : Int) := by
  obtain ⟨h1, h2, c, rest, h3, h4⟩ := toDigitsCore_spec (n + 1) n [] (Nat.lt_succ_self n)
  have hdata : (Nat.repr n).data = c :: rest := by
    simp only [Nat.repr, Nat.toDigits, List.asString]
    exact h3
  have hm : c ≠ '-' := by rintro rfl; simp at h4
  have hp : c ≠ '+' := by rintro rfl; simp at h4
  have hdig : (match (Nat.repr n).data with
      | '-' :: r => r
      | '+' :: r => r
      | cs => cs) = c :: rest := by
    rw [hdata]
    split
    · next r heq => exact absurd (List.cons.inj heq).1 hm
    · next r heq => exact absurd (List.cons.inj heq).1 hp
    · rfl
  have hall : (c :: rest).all Char.isDigit = true := by
    rw [← h3, h2]; rfl
  have hval : (c :: rest).foldl (fun acc ch => acc * 10 + (ch.toNat - 48)) 0 = n := by
    rw [← h3, h1]; rfl
  have hhead : (Nat.repr n).data.head? ≠ some '-' := by
    rw [hdata]; simpa using hm
  simp only [Atoi, hdig, hall, hval, hhead]
  simp
  omega

/-- `Atoi` reads a minus sign followed by the decimal representation of `n`,
within the range of int64, as `-n`. -/
theorem Atoi_neg_repr (n : Nat) (h : n ≤ 9223372036854775808) :
    Atoi ("-" ++ Nat.repr n) = some (-(n : Int)) := by
  obtain ⟨h1, h2, c, rest, h3, h4⟩ := toDigitsCore_spec (n + 1) n [] (Nat.lt_succ_self n)
  have hdata : ("-" ++ Nat.repr n).data = '-' :: c :: rest := by
    rw [String.data_append]
    simp only [Nat.repr, Nat.toDigits, List.asString, h3]
    rfl
  have hdig : (match ("-" ++ Nat.repr n).data with
      | '-' :: r => r
      | '+' :: r => r
      | cs => cs) = c :: rest := by
    rw [hdata]
    rfl
  have hall : (c :: rest).all Char.isDigit = true := by
    rw [← h3, h2]; rfl
  have hval : (c :: rest).foldl (fun acc ch => acc * 10 + (ch.toNat - 48)) 0 = n := by
    rw [← h3, h1]; rfl
  have hhead : ("-" ++ Nat.repr n).data.head? = some '-' := by
    rw [hdata]; rfl
  simp only [Atoi, hdig, hall, hval, hhead]
  simp
  omega

/-- `Atoi` reads the decimal literal of every int64 value as that value. -/
theorem Atoi_toString (z : Int) (hlo : -9223372036854775808 ≤ z)
    (hhi : z ≤ 9223372036854775807) : Atoi (toString z) = some z := by
  cases z with
  | ofNat m =>
    have hs : toString (Int.ofNat m) = Nat.repr m := rfl
    have hm : m ≤ 9223372036854775807 := by
      simp only [Int.ofNat_eq_coe] at hhi; omega
    rw [hs, Atoi_repr m hm]
    rfl
  | negSucc m =>
    have hs : toString (Int.negSucc m) = "-" ++ Nat.repr (m + 1) := rfl
    have hm : m + 1 ≤ 9223372036854775808 := by
      rw [Int.negSucc_eq] at hlo; omega
    rw [hs, Atoi_neg_repr (m + 1) hm, Int.negSucc_eq]
    rfl

/-- Claim C14. For every string `v`, the empty string of an omitted field
included, `parseIntFormValue`, `parseFloatFormValue` and `parseBoolFormValue`
return a value (they are total); the value is the zero sentinel (0, 0.0,
false) when the library function rejects `v`, and the value the library
function parsed when it accepts `v`. The decimal literal of every int64 value
is read as that value, and the true literals of `ParseBool` are exactly the
strings read as true. -/
theorem parseFormValue_sentinel {F : Type} [Zero F] (ParseFloat : String → Option F)
    (v : String) :
    (Atoi v = none → parseIntFormValue v = 0) ∧
      (∀ n : Int, Atoi v = some n → parseIntFormValue v = n) ∧
      (ParseFloat v = none → parseFloatFormValue ParseFloat v = 0) ∧
      (∀ f : F, ParseFloat v = some f → parseFloatFormValue ParseFloat v = f) ∧
      (ParseBool v = none → parseBoolFormValue v = false) ∧
      (∀ b : Bool, ParseBool v = some b → parseBoolFormValue v = b) ∧
      (∀ z : Int, -9223372036854775808 ≤ z → z ≤ 9223372036854775807 →
        parseIntFormValue (toString z) = z) ∧
      (parseBoolFormValue v = true ↔ v ∈ ["1", "t", "T", "TRUE", "true", "True"]) ∧
      parseIntFormValue "" = 0 ∧ parseBoolFormValue "" = false ∧
      (ParseFloat "" = none → parseFloatFormValue ParseFloat "" = 0) ∧
      parseIntFormValue "12abc" = 0 ∧ parseIntFormValue "9223372036854775808" = 0 ∧
      parseIntFormValue "-42" = -42 ∧ parseIntFormValue "+7" = 7 ∧
      parseBoolFormValue "yes" = false ∧ parseBoolFormValue "T" = true ∧
      parseBoolFormValue "false" = false := by
  refine ⟨?_, ?_, ?_, ?_, ?_, ?_, ?_, ?_, by decide, by decide, ?_, by decide, by decide,
    by decide, by decide, by decide, by decide, by decide⟩
  · intro h; simp [parseIntFormValue, h]
  · intro n h; simp [parseIntFormValue, h]
  · intro h; simp [parseFloatFormValue, h]
  · intro f h; simp [parseFloatFormValue, h]
  · intro h; simp [parseBoolFormValue, h]
  · intro b h; simp [parseBoolFormValue, h]
  · intro z hlo hhi; simp [parseIntFormValue, Atoi_toString z hlo hhi]
  · simp only [parseBoolFormValue, ParseBool]
    split_ifs with h1 h2 <;> simp [h1]
  · intro h; simp [parseFloatFormValue, h]

/-- Claim C15. For every server state in which the mutex is free when the
handler locks it: `handleReady` answers 200 with status `ready` and the model
name when a model is loaded, and 503 with status `not_ready` otherwise;
`handleModels` answers 200 with a `data` slice holding the one entry of the
model (its name as id, owned by `local`) when a model is loaded, and an empty
slice that is not nil (written `[]`) otherwise. Both leave the server as it
was. While the mutex is held neither proceeds. -/
theorem handleReady_handleModels_loaded (s : Server) (now : Int) :
    (s.locked = true → handleReady s = none ∧ handleModels s now = none) ∧
    (s.locked = false →
      ∃ (ready : JSONResponse (List (String × String))) (models : JSONResponse ModelList),
        handleReady s = some (s, ready) ∧ handleModels s now = some (s, models) ∧
        (ready.status = 200 ↔ s.ctx ≠ none) ∧
        (s.ctx ≠ none →
          ready.status = 200 ∧ ready.value = [("status", "ready"), ("model", s.modelName)]) ∧
        (s.ctx = none →
          ready.status = 503 ∧
          ready.value = [("status", "not_ready"), ("message", "no model loaded")]) ∧
        models.status = 200 ∧ models.value.object = "list" ∧
        models.value.data ≠ none ∧
        (s.ctx ≠ none →
          models.value.data = some [ModelEntry.mk s.modelName "model" now "local"]) ∧
        (s.ctx = none →
          models.value.data = some [] ∧
          ∀ enc : ModelEntry → String, encodeSlice enc models.value.data = "[]")) := by
  obtain ⟨locked, ctx, modelName, verbose⟩ := s
  constructor
  · intro h
    simp only at h
    subst h
    exact ⟨rfl, rfl⟩
  · intro h
    simp only at h
    subst h
    cases ctx with
    | none =>
      refine ⟨_, _, rfl, rfl, ?_⟩
      simp [encodeSlice, String.intercalate]
    | some c =>
      refine ⟨_, _, rfl, rfl, ?_⟩
      simp

/-- Claim C15 at a concrete input: the server with the model `model.bin`
loaded and the mutex free, at time 17. -/
theorem handleReady_handleModels_loaded_witness :
    handleReady idleServer =
        some (idleServer, JSONResponse.mk 200 [("Content-Type", "application/json")]
          [("status", "ready"), ("model", "model.bin")]) ∧
      (handleModels idleServer 17).map (fun out => out.2.value.data) =
        some (some [ModelEntry.mk "model.bin" "model" 17 "local"]) := by
  obtain ⟨ready, models, hr, hm, _, hl, _, _, _, _, hd, _⟩ :=
    (handleReady_handleModels_loaded idleServer 17).2 rfl
  refine ⟨rfl, ?_⟩
  rw [hm, Option.map_some', hd (by simp [idleServer])]
  rfl

/-- Claim C16. For every request, world and server state, the mutex is in the
same state when `handleTranscription` returns as when it was called, and so is
the rest of the server: a run that took the mutex has released it, and the run
answered 429, which did not take it, leaves it held. -/
theorem handleTranscription_lock_restored (s : Server) (w : World) (r : Request) :
    (handleTranscription s w r).1 = s ∧
      (handleTranscription s w r).1.locked = s.locked ∧
      (s.locked = true →
        (handleTranscription s w r).1.locked = true ∧
        (handleTranscription s w r).2.response.status = 429) ∧
      (s.locked = false →
        (handleTranscription s w r).1.locked = false ∧
        (handleTranscription s w r).2 =
          handleTranscriptionLocked { s with locked := true } w r) := by
  obtain ⟨locked, ctx, modelName, verbose⟩ := s
  cases locked <;> simp [handleTranscription, writeError]

end Sona
